import Mathlib

/-!
Shallow embedding of `src/server.js` (an Express backend relaying Azure cost,
top-resource, and Defender-plan data).

Modelling conventions:
* JS numbers are modelled as exact rationals (`ℚ`).
* A JS value that may be `null`/`undefined` is an `Option`; JS string
  truthiness (`""`, `null`, `undefined` are falsy) is made explicit.
* Each HTTP handler is a pure function of the request body and of its
  upstream collaborators (token fetch, subscription listing, per-subscription
  query), which are passed in as `Except`/`Option`-valued functions,
  mirroring promise resolution/rejection.  The handler returns its response
  together with the list of upstream calls it issued, in order.
* `Promise.all` over promises that each have a `.catch` (the costs path)
  becomes a list of per-subscription `Except` results; `Promise.all` without
  a per-item `.catch` (the top-resources path) becomes `List.mapM` over
  `Except`, which fails as soon as any element fails.
* `Array.prototype.sort` with comparator `(a, b) => b.cost - a.cost` is a
  stable sort into non-increasing cost order, modelled by `List.mergeSort`.
-/

namespace AzureCostApp

/-- JS truthiness of an optional string: `null`/`undefined` and `""` are falsy. -/
def truthyStr : Option String → Bool
  | none => false
  | some s => s ≠ ""

/-- `v || d` for an optional string `v`: the default `d` when `v` is falsy. -/
def jsStrOr (v : Option String) (d : String) : String :=
  match v with
  | none => d
  | some s => if s = "" then d else s

/-- A subscription as shaped by `getSubscriptions` (server.js:66-69). -/
structure Subscription where
  subscriptionId : String
  displayName : String
deriving Repr, DecidableEq

/-- The JSON body of a POST request: `{ startDate, endDate }` (server.js:133). -/
structure RequestBody where
  startDate : Option String
  endDate : Option String
deriving Repr, DecidableEq

/-- One upstream HTTP call issued by a handler. -/
inductive UpstreamCall where
  | tokenFetch
  | listSubscriptions
  | costQuery (subscriptionId : String)
  | resourceQuery (subscriptionId : String)
  | planQuery (subscriptionId : String)
deriving Repr, DecidableEq

/-! ### Costs path (`POST /api/costs`, server.js:131-194) -/

/-- A raw provider row on the costs path.  The handler destructures it as
`[cost, meterCategory, meterSubCategory, , resourceGroup]` (server.js:159):
five positional columns, the fourth unused. -/
structure RawCostRow where
  cost : ℚ
  meterCategory : String
  meterSubCategory : String
  unusedCol : String
  resourceGroup : Option String
deriving Repr, DecidableEq

/-- The `properties` object of a cost-query response; `rows` may be absent. -/
structure CostProperties where
  rows : Option (List RawCostRow)
deriving Repr, DecidableEq

/-- A cost-query response body (`response.data`); `properties` may be absent. -/
structure CostPayload where
  properties : Option CostProperties
deriving Repr, DecidableEq

/-- `data?.properties?.rows || []` (server.js:157). -/
def CostPayload.rowsOrEmpty (p : CostPayload) : List RawCostRow :=
  (p.properties.bind CostProperties.rows).getD []

/-- An aggregated output row, positionally
`[cost, meterCategory, meterSubCategory, subscriptionId, resourceGroup, subscriptionName]`
(server.js:160-167). -/
structure CostRow where
  cost : ℚ
  meterCategory : String
  meterSubCategory : String
  subscriptionId : String
  resourceGroup : String
  subscriptionName : String
deriving Repr, DecidableEq

/-- The per-row flattening of the costs path (server.js:158-168): join the raw
row with its owning subscription, default a falsy resource group to
`"Unknown"`, drop the unused fourth raw column. -/
def mkCostRow (sub : Subscription) (r : RawCostRow) : CostRow :=
  { cost := r.cost
    meterCategory := r.meterCategory
    meterSubCategory := r.meterSubCategory
    subscriptionId := sub.subscriptionId
    resourceGroup := jsStrOr r.resourceGroup "Unknown"
    subscriptionName := sub.displayName }

/-- A column descriptor of the fixed response schema (server.js:179-186). -/
structure Column where
  name : String
  type : String
deriving Repr, DecidableEq

/-- The fixed six-column schema returned by `/api/costs` (server.js:179-186). -/
def costColumns : List Column :=
  [⟨"Cost", "Number"⟩, ⟨"MeterCategory", "String"⟩, ⟨"MeterSubCategory", "String"⟩,
   ⟨"SubscriptionId", "String"⟩, ⟨"ResourceGroup", "String"⟩, ⟨"SubscriptionName", "String"⟩]

/-- The aggregation loop of the costs path (server.js:150-169): each settled
result that failed is skipped, each success contributes its flattened rows. -/
def aggregateCostRows (results : List (Subscription × Except String CostPayload)) :
    List CostRow :=
  results.flatMap fun r =>
    match r.2 with
    | .error _ => []
    | .ok d => d.rowsOrEmpty.map (mkCostRow r.1)

/-- The response of `/api/costs`. -/
inductive CostsResult where
  | badRequest (error : String)
  | serverError (error : String)
  | ok (rows : List CostRow) (columns : List Column) (subscriptions : List Subscription)
deriving Repr, DecidableEq

/-- The `/api/costs` handler (server.js:131-194).  `getToken` models
`getAccessToken`, `getSubs` models `getSubscriptions accessToken`, and
`fetch tok subId start end` models `fetchCostData` — rejection of any of
these is an `Except.error`.  Each per-subscription promise carries its own
`.catch` (server.js:145), so `Promise.all` always resolves and failed
subscriptions are filtered out in the aggregation loop.  The second
component records the upstream calls issued, in order. -/
def costsHandler (body : RequestBody)
    (getToken : Except String String)
    (getSubs : String → Except String (List Subscription))
    (fetch : String → String → String → String → Except String CostPayload) :
    CostsResult × List UpstreamCall :=
  if truthyStr body.startDate && truthyStr body.endDate then
    let startDate := body.startDate.getD ""
    let endDate := body.endDate.getD ""
    match getToken with
    | .error _ => (.serverError "Failed to fetch cost data", [.tokenFetch])
    | .ok accessToken =>
      match getSubs accessToken with
      | .error _ => (.serverError "Failed to fetch cost data", [.tokenFetch, .listSubscriptions])
      | .ok subscriptions =>
        let results := subscriptions.map fun sub =>
          (sub, fetch accessToken sub.subscriptionId startDate endDate)
        (.ok (aggregateCostRows results) costColumns subscriptions,
         [.tokenFetch, .listSubscriptions] ++
           subscriptions.map fun sub => .costQuery sub.subscriptionId)
  else
    (.badRequest "Missing required parameters", [])

/-! ### Top-resources path (`POST /api/top-resources`, server.js:247-292) -/

/-- A raw provider row on the top-resources path: `row[0]` is the cost,
`row[1]` the resource id (possibly null), `row[2]` the meter subcategory
(server.js:268-270). -/
structure RawResourceRow where
  cost : ℚ
  resourceId : Option String
  meterSubCategory : String
deriving Repr, DecidableEq

/-- The `properties` object of a resource-query response; `rows` may be absent. -/
structure ResourceProperties where
  rows : Option (List RawResourceRow)
deriving Repr, DecidableEq

/-- A resource-query response body; `properties` may be absent. -/
structure ResourcePayload where
  properties : Option ResourceProperties
deriving Repr, DecidableEq

/-- The guarded row access `result.data?.properties?.rows` (server.js:266):
when the chain is absent the subscription is skipped, i.e. contributes `[]`. -/
def ResourcePayload.rowsOrEmpty (p : ResourcePayload) : List RawResourceRow :=
  (p.properties.bind ResourceProperties.rows).getD []

/-- Helper for `splitSlash`: consume the remaining characters, `acc` holding
the current segment reversed. -/
def splitSlashAux : List Char → List Char → List String
  | [], acc => [String.mk acc.reverse]
  | c :: cs, acc =>
    if c = '/' then String.mk acc.reverse :: splitSlashAux cs []
    else splitSlashAux cs (c :: acc)

/-- JS `s.split(\x27/\x27)`: the `/`-separated segments of `s`, keeping empty
segments (`"".split` gives `[""]`, a leading or trailing `/` gives an empty
segment). -/
def splitSlash (s : String) : List String := splitSlashAux s.toList []

/-- `resourceId ? resourceId.split(\x27/\x27).pop() : \x27Unknown\x27`
(server.js:271): the last `/`-separated segment of a truthy resource id,
`"Unknown"` for a falsy one. -/
def deriveResourceName (rid : Option String) : String :=
  match rid with
  | none => "Unknown"
  | some s => if s = "" then "Unknown" else (splitSlash s).getLastD ""

/-- `parseFloat(cost.toFixed(2))` (server.js:278) over the exact-rational
number model.  ECMA-262 `toFixed(2)` picks the integer `n` with `n / 100`
closest to the absolute value of the receiver, ties to the larger `n`, and
prefixes the sign — i.e. rounding half away from zero at 2 decimals;
`parseFloat` then reads the decimal string back as the number `n / 100`. -/
def jsToFixed2 (x : ℚ) : ℚ :=
  if x < 0 then -((⌊(-x) * 100 + 1 / 2⌋ : ℤ) : ℚ) / 100
  else ((⌊x * 100 + 1 / 2⌋ : ℤ) : ℚ) / 100

/-- An entry of the `/api/top-resources` response (server.js:272-279). -/
structure TopResource where
  subscriptionId : String
  subscriptionName : String
  resourceName : String
  resourceId : Option String
  meterSubCategory : String
  cost : ℚ
deriving Repr, DecidableEq

/-- The per-row transform of the top-resources path (server.js:267-279). -/
def mkTopResource (sub : Subscription) (r : RawResourceRow) : TopResource :=
  { subscriptionId := sub.subscriptionId
    subscriptionName := sub.displayName
    resourceName := deriveResourceName r.resourceId
    resourceId := r.resourceId
    meterSubCategory := r.meterSubCategory
    cost := jsToFixed2 r.cost }

/-- The comparator `(a, b) => b.cost - a.cost` (server.js:284) as the order
it sorts into: `a` precedes `b` when `b.cost ≤ a.cost`. -/
def costDescLE (a b : TopResource) : Bool := b.cost ≤ a.cost

/-- `topResources.sort((a, b) => b.cost - a.cost).slice(0, 10)`
(server.js:284): stable sort into non-increasing cost order, keep the
first 10. -/
def rankTopResources (l : List TopResource) : List TopResource :=
  (l.mergeSort costDescLE).take 10

/-- `Promise.all` over promises with no per-item `.catch`: the whole batch
resolves with every result, or rejects as soon as any element rejects. -/
def exceptMapM {α β : Type} (f : α → Except String β) : List α → Except String (List β)
  | [] => .ok []
  | a :: as =>
    match f a with
    | .error e => .error e
    | .ok b =>
      match exceptMapM f as with
      | .error e => .error e
      | .ok bs => .ok (b :: bs)

/-- The response of `/api/top-resources`. -/
inductive TopResult where
  | badRequest (error : String)
  | serverError (error : String)
  | ok (resources : List TopResource)
deriving Repr, DecidableEq

/-- The fan-out-and-merge stage of `/api/top-resources` (server.js:257-287),
reached once the token and the subscription list are in hand.  Unlike the
costs path, the per-subscription promises have no `.catch`
(server.js:257-260), so a single rejection rejects the whole `Promise.all`
and the outer catch returns a 500.  All fetches are launched before
`Promise.all` settles, so the call log lists every subscription's query even
when one of them fails. -/
def topResourcesCore (accessToken : String) (body : RequestBody)
    (subscriptions : List Subscription)
    (fetch : String → String → String → String → Except String ResourcePayload) :
    TopResult × List UpstreamCall :=
  match exceptMapM (fun sub =>
      (fetch accessToken sub.subscriptionId (body.startDate.getD "")
        (body.endDate.getD "")).map (fun d => (sub, d))) subscriptions with
  | .error _ =>
    (.serverError "Failed to fetch top resources",
     [.tokenFetch, .listSubscriptions] ++
       subscriptions.map fun sub => .resourceQuery sub.subscriptionId)
  | .ok results =>
    (.ok (rankTopResources (results.flatMap fun r =>
        r.2.rowsOrEmpty.map (mkTopResource r.1))),
     [.tokenFetch, .listSubscriptions] ++
       subscriptions.map fun sub => .resourceQuery sub.subscriptionId)

/-- The `/api/top-resources` handler (server.js:247-292): validation, token
fetch and subscription listing, then the fan-out stage. -/
def topResourcesHandler (body : RequestBody)
    (getToken : Except String String)
    (getSubs : String → Except String (List Subscription))
    (fetch : String → String → String → String → Except String ResourcePayload) :
    TopResult × List UpstreamCall :=
  if truthyStr body.startDate && truthyStr body.endDate then
    match getToken with
    | .error _ => (.serverError "Failed to fetch top resources", [.tokenFetch])
    | .ok accessToken =>
      match getSubs accessToken with
      | .error _ =>
        (.serverError "Failed to fetch top resources", [.tokenFetch, .listSubscriptions])
      | .ok subscriptions => topResourcesCore accessToken body subscriptions fetch
  else
    (.badRequest "Missing required parameters", [])

/-! ### Plans path (`GET /api/plans`, server.js:295-348) -/

/-- The `properties` object of one Defender plan record; `pricingTier` may be
absent. -/
structure PlanProperties where
  pricingTier : Option String
deriving Repr, DecidableEq

/-- One record of a pricings response (`plan.name`, `plan.properties`). -/
structure PlanRecord where
  name : String
  properties : Option PlanProperties
deriving Repr, DecidableEq

/-- A pricings response body; `value` may be absent. -/
structure PlansPayload where
  value : Option (List PlanRecord)
deriving Repr, DecidableEq

/-- The guard `plan.properties?.pricingTier` (server.js:330): the tier when
the chain is present and truthy, `none` otherwise. -/
def planTier (p : PlanRecord) : Option String :=
  match p.properties with
  | none => none
  | some pr =>
    match pr.pricingTier with
    | none => none
    | some t => if t = "" then none else some t

/-- An entry of the `/api/plans` response (server.js:331-336). -/
structure DefenderPlan where
  subscriptionId : String
  subscriptionName : String
  planName : String
  pricingTier : String
deriving Repr, DecidableEq

/-- The per-subscription extraction of the plans path (server.js:327-340):
`fetchDefenderPlans` swallows failure into `null` (server.js:307-310), a
null payload or absent `value` contributes nothing, and a record without a
truthy pricing tier is dropped. -/
def plansFromPayload (sub : Subscription) (data : Option PlansPayload) :
    List DefenderPlan :=
  match data with
  | none => []
  | some pay =>
    match pay.value with
    | none => []
    | some plans =>
      plans.filterMap fun plan =>
        (planTier plan).map fun t =>
          { subscriptionId := sub.subscriptionId
            subscriptionName := sub.displayName
            planName := plan.name
            pricingTier := t }

/-- The response of `/api/plans`. -/
inductive PlansResult where
  | serverError (error : String)
  | ok (plans : List DefenderPlan)
deriving Repr, DecidableEq

/-- The `/api/plans` handler (server.js:314-348).  `fetchPlans tok subId`
models `fetchDefenderPlans`, whose own catch turns failure into `null`
(`Option.none`), so the fan-out never rejects. -/
def plansHandler
    (getToken : Except String String)
    (getSubs : String → Except String (List Subscription))
    (fetchPlans : String → String → Option PlansPayload) :
    PlansResult × List UpstreamCall :=
  match getToken with
  | .error _ => (.serverError "Failed to fetch Defender plans", [.tokenFetch])
  | .ok accessToken =>
    match getSubs accessToken with
    | .error _ =>
      (.serverError "Failed to fetch Defender plans", [.tokenFetch, .listSubscriptions])
    | .ok subscriptions =>
      let results := subscriptions.map fun sub =>
        (sub, fetchPlans accessToken sub.subscriptionId)
      let plansData := results.flatMap fun r => plansFromPayload r.1 r.2
      (.ok plansData,
       [.tokenFetch, .listSubscriptions] ++
         subscriptions.map fun sub => .planQuery sub.subscriptionId)

/-! ### Helper lemmas -/

theorem aggregateCostRows_length
    (results : List (Subscription × Except String CostPayload)) :
    (aggregateCostRows results).length =
      (results.map fun r =>
        match r.2 with
        | .ok d => d.rowsOrEmpty.length
        | .error _ => 0).sum := by
  unfold aggregateCostRows
  rw [List.length_flatMap]
  congr 1
  refine List.map_congr_left fun r _ => ?_
  rcases r with ⟨sub, d⟩
  cases d <;> simp

theorem exceptMapM_ok_forall {α β : Type} (f : α → Except String β) :
    ∀ (l : List α) (res : List β), exceptMapM f l = .ok res → ∀ a ∈ l, ∃ b, f a = .ok b := by
  intro l
  induction l with
  | nil => simp
  | cons x xs ih =>
    intro res h a ha
    unfold exceptMapM at h
    cases hx : f x with
    | error e => rw [hx] at h; exact absurd h (by simp)
    | ok b =>
      rw [hx] at h
      cases hxs : exceptMapM f xs with
      | error e => rw [hxs] at h; exact absurd h (by simp)
      | ok bs =>
        rcases List.mem_cons.mp ha with rfl | ha'
        · exact ⟨b, hx⟩
        · exact ih bs hxs a ha'

theorem exceptMapM_ok_mem {α β : Type} (f : α → Except String β) :
    ∀ (l : List α) (res : List β), exceptMapM f l = .ok res → ∀ b ∈ res, ∃ a ∈ l, f a = .ok b := by
  intro l
  induction l with
  | nil =>
    intro res h b hb
    unfold exceptMapM at h
    cases h
    simp at hb
  | cons x xs ih =>
    intro res h b hb
    unfold exceptMapM at h
    cases hx : f x with
    | error e => rw [hx] at h; exact absurd h (by simp)
    | ok y =>
      rw [hx] at h
      cases hxs : exceptMapM f xs with
      | error e => rw [hxs] at h; exact absurd h (by simp)
      | ok ys =>
        rw [hxs] at h
        cases h
        rcases List.mem_cons.mp hb with rfl | hb'
        · exact ⟨x, List.mem_cons_self x xs, hx⟩
        · obtain ⟨a, ha, hfa⟩ := ih ys hxs b hb'
          exact ⟨a, List.mem_cons_of_mem x ha, hfa⟩

theorem exceptMapM_ok_of_forall {α β : Type} (f : α → Except String β) :
    ∀ (l : List α), (∀ a ∈ l, ∃ b, f a = .ok b) → ∃ res, exceptMapM f l = .ok res := by
  intro l
  induction l with
  | nil => intro _; exact ⟨[], rfl⟩
  | cons x xs ih =>
    intro h
    obtain ⟨b, hb⟩ := h x (List.mem_cons_self x xs)
    obtain ⟨res, hres⟩ := ih fun a ha => h a (List.mem_cons_of_mem x ha)
    exact ⟨b :: res, by unfold exceptMapM; rw [hb, hres]⟩

theorem exceptMapM_error_of_mem {α β : Type} (f : α → Except String β)
    (l : List α) (a : α) (ha : a ∈ l) (e : String) (he : f a = .error e) :
    ∃ msg, exceptMapM f l = .error msg := by
  induction l with
  | nil => simp at ha
  | cons x xs ih =>
    rcases List.mem_cons.mp ha with rfl | ha'
    · exact ⟨e, by unfold exceptMapM; rw [he]⟩
    · cases hx : f x with
      | error e' => exact ⟨e', by unfold exceptMapM; rw [hx]⟩
      | ok b =>
        obtain ⟨msg, hmsg⟩ := ih ha'
        exact ⟨msg, by unfold exceptMapM; rw [hx, hmsg]⟩

/-! ### Claim theorems -/

/-- C1: on the `/api/costs` path, for every subscription list and every
per-subscription outcome, the handler still answers 200 with the fixed
schema and the full subscription list, and the aggregated row count is the
sum of the successful subscriptions' row counts — a failed subscription
contributes zero rows, is omitted, and neither aborts the request nor
affects the other subscriptions' contributions. -/
theorem costs_failed_subscriptions_isolated
    (body : RequestBody) (hs : truthyStr body.startDate = true)
    (he : truthyStr body.endDate = true)
    (tok : String) (subs : List Subscription)
    (fetch : String → String → String → String → Except String CostPayload) :
    ∃ rows : List CostRow,
      (costsHandler body (.ok tok) (fun _ => .ok subs) fetch).1 =
        .ok rows costColumns subs ∧
      rows.length = (subs.map fun sub =>
        match fetch tok sub.subscriptionId (body.startDate.getD "")
            (body.endDate.getD "") with
        | .ok d => d.rowsOrEmpty.length
        | .error _ => 0).sum := by
  have hcond : (truthyStr body.startDate && truthyStr body.endDate) = true := by
    rw [hs, he]; rfl
  refine ⟨aggregateCostRows (subs.map fun sub =>
    (sub, fetch tok sub.subscriptionId (body.startDate.getD "") (body.endDate.getD ""))),
    ?_, ?_⟩
  · unfold costsHandler
    rw [hcond]
    rfl
  · rw [aggregateCostRows_length, List.map_map]
    rfl

/-- Witness for C1 at a concrete input: two subscriptions, the second one's
query fails; the request succeeds and the row count is the first
subscription's row count. -/
theorem costs_failed_subscriptions_isolated_witness :
    ∃ rows : List CostRow,
      (costsHandler ⟨some "2024-01-01", some "2024-01-31"⟩ (.ok "tok")
          (fun _ => .ok [⟨"s1", "One"⟩, ⟨"s2", "Two"⟩])
          (fun _ sid _ _ =>
            if sid = "s1" then .ok ⟨some ⟨some [⟨5, "MC", "MS", "u", none⟩]⟩⟩
            else .error "boom")).1 =
        .ok rows costColumns [⟨"s1", "One"⟩, ⟨"s2", "Two"⟩] ∧
      rows.length = (([⟨"s1", "One"⟩, ⟨"s2", "Two"⟩] : List Subscription).map fun sub =>
        match (fun (_ : String) (sid : String) (_ : String) (_ : String) =>
            if sid = "s1" then Except.ok (⟨some ⟨some [⟨5, "MC", "MS", "u", none⟩]⟩⟩ : CostPayload)
            else Except.error "boom") "tok" sub.subscriptionId
            ((some "2024-01-01").getD "") ((some "2024-01-31").getD "") with
        | .ok d => d.rowsOrEmpty.length
        | .error _ => 0).sum :=
  costs_failed_subscriptions_isolated ⟨some "2024-01-01", some "2024-01-31"⟩
    rfl rfl "tok" [⟨"s1", "One"⟩, ⟨"s2", "Two"⟩] _

theorem rankTopResources_spec (tops : List TopResource) :
    (rankTopResources tops).length ≤ 10 ∧
      (rankTopResources tops).Pairwise fun a b => b.cost ≤ a.cost := by
  constructor
  · unfold rankTopResources
    simp [List.length_take]
  · unfold rankTopResources
    have htrans : ∀ a b c : TopResource,
        costDescLE a b = true → costDescLE b c = true → costDescLE a c = true := by
      intro a b c hab hbc
      simp only [costDescLE, decide_eq_true_eq] at *
      exact le_trans hbc hab
    have htot : ∀ a b : TopResource, (costDescLE a b || costDescLE b a) = true := by
      intro a b
      simp only [costDescLE, Bool.or_eq_true, decide_eq_true_eq]
      exact le_total b.cost a.cost
    have hsorted := List.sorted_mergeSort htrans htot tops
    have hp := hsorted.sublist (List.take_sublist 10 (tops.mergeSort costDescLE))
    exact hp.imp fun h => by simpa [costDescLE] using h

/-- C2: every successful `/api/top-resources` response is a list of at most
10 entries, in non-increasing order of `cost`. -/
theorem topResources_output_bounded_sorted
    (body : RequestBody) (getToken : Except String String)
    (getSubs : String → Except String (List Subscription))
    (fetch : String → String → String → String → Except String ResourcePayload)
    (l : List TopResource)
    (h : (topResourcesHandler body getToken getSubs fetch).1 = .ok l) :
    l.length ≤ 10 ∧ l.Pairwise fun a b => b.cost ≤ a.cost := by
  unfold topResourcesHandler at h
  split at h
  · split at h
    · exact absurd h (by simp)
    · split at h
      · exact absurd h (by simp)
      · unfold topResourcesCore at h
        split at h
        · exact absurd h (by simp)
        · simp only [TopResult.ok.injEq] at h
          subst h
          exact rankTopResources_spec _
  · exact absurd h (by simp)

/-- Witness for C2 at a concrete input: one subscription with three rows;
the response is the three entries sorted by descending cost, which is of
length at most 10 and non-increasing. -/
theorem topResources_output_bounded_sorted_witness :
    ([⟨"s1", "One", "b", some "a/b", "MS", 7⟩, ⟨"s1", "One", "d", some "c/d", "MS", 5⟩,
        ⟨"s1", "One", "f", some "e/f", "MS", 2⟩] : List TopResource).length ≤ 10 ∧
      ([⟨"s1", "One", "b", some "a/b", "MS", 7⟩, ⟨"s1", "One", "d", some "c/d", "MS", 5⟩,
        ⟨"s1", "One", "f", some "e/f", "MS", 2⟩] : List TopResource).Pairwise
        (fun a b => b.cost ≤ a.cost) :=
  topResources_output_bounded_sorted ⟨some "2024-01-01", some "2024-01-31"⟩ (.ok "tok")
    (fun _ => .ok [⟨"s1", "One"⟩])
    (fun _ _ _ _ => .ok ⟨some ⟨some
      [⟨5, some "c/d", "MS"⟩, ⟨7, some "a/b", "MS"⟩, ⟨2, some "e/f", "MS"⟩]⟩⟩)
    _
    (by norm_num [topResourcesHandler, topResourcesCore, exceptMapM, Except.map, rankTopResources,
          List.mergeSort, List.merge, mkTopResource, deriveResourceName, splitSlash,
          splitSlashAux, jsToFixed2, truthyStr, ResourcePayload.rowsOrEmpty, costDescLE];
        decide)

/-- C3: a request to `/api/costs` or `/api/top-resources` whose body lacks a
truthy `startDate` or `endDate` is answered with the 400 "Missing required
parameters" error and an empty upstream-call log: no token fetch, no
subscription listing, no per-subscription query. -/
theorem missing_dates_rejected_without_upstream_calls
    (body : RequestBody)
    (h : truthyStr body.startDate = false ∨ truthyStr body.endDate = false)
    (getToken : Except String String)
    (getSubs : String → Except String (List Subscription))
    (fetchC : String → String → String → String → Except String CostPayload)
    (fetchR : String → String → String → String → Except String ResourcePayload) :
    costsHandler body getToken getSubs fetchC =
      (.badRequest "Missing required parameters", []) ∧
    topResourcesHandler body getToken getSubs fetchR =
      (.badRequest "Missing required parameters", []) := by
  unfold costsHandler topResourcesHandler
  rcases h with h | h <;> simp [h]

/-- Witness for C3 at a concrete input: a body with no `startDate`. -/
theorem missing_dates_rejected_without_upstream_calls_witness :
    costsHandler ⟨none, some "2024-01-31"⟩ (.ok "tok") (fun _ => .ok [])
        (fun _ _ _ _ => .ok ⟨none⟩) =
      (.badRequest "Missing required parameters", []) ∧
    topResourcesHandler ⟨none, some "2024-01-31"⟩ (.ok "tok") (fun _ => .ok [])
        (fun _ _ _ _ => .ok ⟨none⟩) =
      (.badRequest "Missing required parameters", []) :=
  missing_dates_rejected_without_upstream_calls ⟨none, some "2024-01-31"⟩
    (Or.inl rfl) (.ok "tok") (fun _ => .ok []) (fun _ _ _ _ => .ok ⟨none⟩)
    (fun _ _ _ _ => .ok ⟨none⟩)

/-- C4: on the `/api/top-resources` path a per-subscription query failure is
not caught per item: whenever any listed subscription's query fails, the
whole request fails with the 500 "Failed to fetch top resources" error and
no partial result is produced. -/
theorem topResources_failure_propagates
    (body : RequestBody) (hs : truthyStr body.startDate = true)
    (he : truthyStr body.endDate = true)
    (tok : String) (subs : List Subscription)
    (fetch : String → String → String → String → Except String ResourcePayload)
    (hfail : ∃ sub ∈ subs, ∃ msg,
      fetch tok sub.subscriptionId (body.startDate.getD "") (body.endDate.getD "") =
        .error msg) :
    (topResourcesHandler body (.ok tok) (fun _ => .ok subs) fetch).1 =
      .serverError "Failed to fetch top resources" := by
  have hcond : (truthyStr body.startDate && truthyStr body.endDate) = true := by
    rw [hs, he]; rfl
  obtain ⟨sub, hsub, msg, hmsg⟩ := hfail
  obtain ⟨e, he'⟩ := exceptMapM_error_of_mem
    (fun sub => (fetch tok sub.subscriptionId (body.startDate.getD "")
        (body.endDate.getD "")).map (fun d => (sub, d)))
    subs sub hsub msg (by simp only [hmsg]; rfl)
  unfold topResourcesHandler
  rw [hcond]
  show (topResourcesCore tok body subs fetch).1 = _
  unfold topResourcesCore
  rw [he']

/-- Witness for C4 at a concrete input: one of two subscriptions fails, the
response is the 500 error. -/
theorem topResources_failure_propagates_witness :
    (topResourcesHandler ⟨some "2024-01-01", some "2024-01-31"⟩ (.ok "tok")
        (fun _ => .ok [⟨"s1", "One"⟩, ⟨"s2", "Two"⟩])
        (fun _ sid _ _ =>
          if sid = "s2" then .error "boom"
          else .ok ⟨some ⟨some [⟨5, some "a/b", "MS"⟩]⟩⟩)).1 =
      .serverError "Failed to fetch top resources" :=
  topResources_failure_propagates ⟨some "2024-01-01", some "2024-01-31"⟩ rfl rfl
    "tok" [⟨"s1", "One"⟩, ⟨"s2", "Two"⟩]
    (fun _ sid _ _ =>
      if sid = "s2" then .error "boom"
      else .ok ⟨some ⟨some [⟨5, some "a/b", "MS"⟩]⟩⟩)
    ⟨⟨"s2", "Two"⟩, by simp, "boom", rfl⟩

theorem length_filterMap_eq_countP {α β : Type} (f : α → Option β) :
    ∀ l : List α, (l.filterMap f).length = l.countP fun a => (f a).isSome := by
  intro l
  induction l with
  | nil => rfl
  | cons x xs ih =>
    cases hx : f x with
    | none => simp [List.filterMap_cons, hx, List.countP_cons, ih]
    | some b => simp [List.filterMap_cons, hx, List.countP_cons, ih]

theorem plansFromPayload_length (sub : Subscription) (data : Option PlansPayload) :
    (plansFromPayload sub data).length =
      match data with
      | none => 0
      | some pay => (pay.value.getD []).countP fun p => (planTier p).isSome := by
  cases data with
  | none => rfl
  | some pay =>
    cases hv : pay.value with
    | none => simp [plansFromPayload, hv]
    | some plans =>
      simp only [plansFromPayload, hv, Option.getD_some]
      rw [length_filterMap_eq_countP]
      congr 1
      funext plan
      cases planTier plan <;> rfl

/-- C5: on the `/api/plans` path, for every token, subscription list and
per-subscription outcome the request succeeds, the output length is the sum
over the subscriptions of the number of their plan records carrying a
pricing tier — so a record without a tier is dropped and a subscription
whose fetch failed (swallowed into a null payload) contributes nothing
while the others' valid records remain — and every output entry's tier and
name come from an actual record of a listed subscription. -/
theorem plans_tier_filter_and_failure_isolation
    (tok : String) (subs : List Subscription)
    (fetchPlans : String → String → Option PlansPayload) :
    ∃ l : List DefenderPlan,
      (plansHandler (.ok tok) (fun _ => .ok subs) fetchPlans).1 = .ok l ∧
      l.length = (subs.map fun sub =>
        match fetchPlans tok sub.subscriptionId with
        | none => 0
        | some pay => (pay.value.getD []).countP fun p => (planTier p).isSome).sum ∧
      ∀ p ∈ l, ∃ sub ∈ subs, ∃ pay, fetchPlans tok sub.subscriptionId = some pay ∧
        ∃ record ∈ pay.value.getD [], planTier record = some p.pricingTier ∧
          p.planName = record.name ∧ p.subscriptionId = sub.subscriptionId ∧
          p.subscriptionName = sub.displayName := by
  refine ⟨(subs.map fun sub => (sub, fetchPlans tok sub.subscriptionId)).flatMap
    (fun r => plansFromPayload r.1 r.2), ?_, ?_, ?_⟩
  · rfl
  · rw [List.length_flatMap, List.map_map]
    congr 1
    refine List.map_congr_left fun sub _ => ?_
    exact plansFromPayload_length sub (fetchPlans tok sub.subscriptionId)
  · intro p hp
    rw [List.mem_flatMap] at hp
    obtain ⟨r, hr, hpr⟩ := hp
    rw [List.mem_map] at hr
    obtain ⟨sub, hsub, rfl⟩ := hr
    cases hf : fetchPlans tok sub.subscriptionId with
    | none => rw [hf] at hpr; simp [plansFromPayload] at hpr
    | some pay =>
      rw [hf] at hpr
      cases hv : pay.value with
      | none => simp [plansFromPayload, hv] at hpr
      | some plans =>
        simp only [plansFromPayload, hv] at hpr
        rw [List.mem_filterMap] at hpr
        obtain ⟨plan, hplan, hg⟩ := hpr
        cases ht : planTier plan with
        | none => rw [ht] at hg; simp at hg
        | some t =>
          rw [ht] at hg
          simp only [Option.map_some'] at hg
          obtain rfl := Option.some.inj hg
          refine ⟨sub, hsub, pay, hf, plan, ?_, ?_, rfl, rfl, rfl⟩
          · rw [hv]; exact hplan
          · rw [ht]

/-- C6: on the `/api/top-resources` path, `resourceName` is the last
`/`-separated segment of `resourceId`, and `"Unknown"` whenever
`resourceId` is falsy; in particular
`"/sub/rg/providers/Foo/bar/myResource"` yields `"myResource"`. -/
theorem topResources_resourceName_derivation :
    (∀ (sub : Subscription) (r : RawResourceRow),
        (mkTopResource sub r).resourceName =
          match r.resourceId with
          | none => "Unknown"
          | some s => if s = "" then "Unknown" else (splitSlash s).getLastD "") ∧
    deriveResourceName (some "/sub/rg/providers/Foo/bar/myResource") = "myResource" ∧
    deriveResourceName none = "Unknown" ∧
    deriveResourceName (some "") = "Unknown" :=
  ⟨fun sub r => by
      cases h : r.resourceId <;> simp [mkTopResource, deriveResourceName, h],
    by decide, rfl, rfl⟩

theorem floorHalfBound (y : ℚ) :
    |((⌊y * 100 + 1 / 2⌋ : ℤ) : ℚ) / 100 - y| ≤ 1 / 200 := by
  have h1 : ((⌊y * 100 + 1 / 2⌋ : ℤ) : ℚ) ≤ y * 100 + 1 / 2 := Int.floor_le _
  have h2 : y * 100 + 1 / 2 < ((⌊y * 100 + 1 / 2⌋ : ℤ) : ℚ) + 1 := Int.lt_floor_add_one _
  rw [abs_le]
  constructor <;> linarith

/-- C7: on the `/api/top-resources` path every emitted cost is
`parseFloat(cost.toFixed(2))` of the raw cost, which in the exact-rational
number model is the raw cost rounded half away from zero to 2 decimal
places: `12.345` is emitted as `12.35` and `12.344` as `12.34`, and in
general the emitted value is an integer multiple of `1/100` within `1/200`
of the raw cost. -/
theorem topResources_cost_rounded_2dp :
    (∀ (sub : Subscription) (r : RawResourceRow),
        (mkTopResource sub r).cost = jsToFixed2 r.cost) ∧
    jsToFixed2 (12345 / 1000) = 1235 / 100 ∧
    jsToFixed2 (12344 / 1000) = 1234 / 100 ∧
    ∀ x : ℚ, ∃ n : ℤ, jsToFixed2 x = (n : ℚ) / 100 ∧ |jsToFixed2 x - x| ≤ 1 / 200 := by
  refine ⟨fun sub r => rfl, by norm_num [jsToFixed2], by norm_num [jsToFixed2],
    fun x => ?_⟩
  unfold jsToFixed2
  split
  · refine ⟨-⌊(-x) * 100 + 1 / 2⌋, by push_cast; ring, ?_⟩
    have hb := floorHalfBound (-x)
    have heq : -((⌊(-x) * 100 + 1 / 2⌋ : ℤ) : ℚ) / 100 - x =
        -(((⌊(-x) * 100 + 1 / 2⌋ : ℤ) : ℚ) / 100 - (-x)) := by ring
    rw [heq, abs_neg]
    exact hb
  · exact ⟨⌊x * 100 + 1 / 2⌋, rfl, floorHalfBound x⟩

theorem aggregateCostRows_map (subs : List Subscription)
    (g : Subscription → Except String CostPayload) :
    aggregateCostRows (subs.map fun sub => (sub, g sub)) =
      subs.flatMap fun sub =>
        match g sub with
        | .error _ => []
        | .ok d => d.rowsOrEmpty.map (mkCostRow sub) := by
  unfold aggregateCostRows
  rw [List.flatMap_map]

/-- C8: on the `/api/costs` path each successful subscription's raw rows are
flattened positionally into
`[cost, meterCategory, meterSubCategory, subscriptionId, resourceGroup-or-Unknown, subscriptionName]`
— the unused fourth raw column is discarded and a falsy resource group
becomes `"Unknown"` — and the 200 response always carries the merged rows,
the fixed six-column schema and the subscription list, with an empty
subscription list yielding zero rows rather than an error. -/
theorem costs_row_shape_and_empty_ok
    (body : RequestBody) (hs : truthyStr body.startDate = true)
    (he : truthyStr body.endDate = true)
    (tok : String) (subs : List Subscription)
    (fetch : String → String → String → String → Except String CostPayload) :
    ∃ rows : List CostRow,
      (costsHandler body (.ok tok) (fun _ => .ok subs) fetch).1 =
        .ok rows costColumns subs ∧
      rows = (subs.flatMap fun sub =>
        match fetch tok sub.subscriptionId (body.startDate.getD "")
            (body.endDate.getD "") with
        | .error _ => []
        | .ok d => d.rowsOrEmpty.map (mkCostRow sub)) ∧
      (∀ (sub : Subscription) (r : RawCostRow),
        mkCostRow sub r =
          { cost := r.cost, meterCategory := r.meterCategory,
            meterSubCategory := r.meterSubCategory,
            subscriptionId := sub.subscriptionId,
            resourceGroup :=
              match r.resourceGroup with
              | none => "Unknown"
              | some s => if s = "" then "Unknown" else s,
            subscriptionName := sub.displayName }) ∧
      (∀ (sub : Subscription) (r : RawCostRow) (u : String),
        mkCostRow sub { r with unusedCol := u } = mkCostRow sub r) ∧
      (subs = [] → rows = []) := by
  have hcond : (truthyStr body.startDate && truthyStr body.endDate) = true := by
    rw [hs, he]; rfl
  refine ⟨(subs.flatMap fun sub =>
      match fetch tok sub.subscriptionId (body.startDate.getD "")
          (body.endDate.getD "") with
      | .error _ => []
      | .ok d => d.rowsOrEmpty.map (mkCostRow sub)), ?_, rfl, ?_, ?_, ?_⟩
  · unfold costsHandler
    rw [hcond]
    exact congrArg (fun l => CostsResult.ok l costColumns subs)
      (aggregateCostRows_map subs fun sub =>
        fetch tok sub.subscriptionId (body.startDate.getD "") (body.endDate.getD ""))
  · intro sub r
    cases h : r.resourceGroup <;> simp [mkCostRow, jsStrOr, h]
  · intro sub r u
    rfl
  · intro h
    subst h
    rfl

/-- Witness for C8 at a concrete input: one subscription whose payload has
one raw row with a null resource group; the response carries the row with
resource group `"Unknown"`, the fixed schema, and the subscription list. -/
theorem costs_row_shape_and_empty_ok_witness :
    ∃ rows : List CostRow,
      (costsHandler ⟨some "2024-01-01", some "2024-01-31"⟩ (.ok "tok")
          (fun _ => .ok [⟨"s1", "One"⟩])
          (fun _ _ _ _ => .ok ⟨some ⟨some [⟨5, "MC", "MS", "u", none⟩]⟩⟩)).1 =
        .ok rows costColumns [⟨"s1", "One"⟩] ∧
      rows = (([⟨"s1", "One"⟩] : List Subscription).flatMap fun sub =>
        (CostPayload.rowsOrEmpty ⟨some ⟨some [⟨5, "MC", "MS", "u", none⟩]⟩⟩).map
          (mkCostRow sub)) ∧
      (∀ (sub : Subscription) (r : RawCostRow),
        mkCostRow sub r =
          { cost := r.cost, meterCategory := r.meterCategory,
            meterSubCategory := r.meterSubCategory,
            subscriptionId := sub.subscriptionId,
            resourceGroup :=
              match r.resourceGroup with
              | none => "Unknown"
              | some s => if s = "" then "Unknown" else s,
            subscriptionName := sub.displayName }) ∧
      (∀ (sub : Subscription) (r : RawCostRow) (u : String),
        mkCostRow sub { r with unusedCol := u } = mkCostRow sub r) ∧
      (([⟨"s1", "One"⟩] : List Subscription) = [] → rows = []) :=
  costs_row_shape_and_empty_ok ⟨some "2024-01-01", some "2024-01-31"⟩ rfl rfl
    "tok" [⟨"s1", "One"⟩]
    (fun _ _ _ _ => .ok ⟨some ⟨some [⟨5, "MC", "MS", "u", none⟩]⟩⟩)

theorem sub_unique_of_fields (subs : List Subscription)
    (sub : Subscription) (hsub : sub ∈ subs) (sid sname : String)
    (hid : sid = sub.subscriptionId) (hname : sname = sub.displayName) :
    ∃! s, s ∈ subs ∧ sid = s.subscriptionId ∧ sname = s.displayName := by
  refine ⟨sub, ⟨hsub, hid, hname⟩, ?_⟩
  rintro s' ⟨-, hid', hname'⟩
  have e1 : s'.subscriptionId = sub.subscriptionId := by rw [← hid']; exact hid
  have e2 : s'.displayName = sub.displayName := by rw [← hname']; exact hname
  calc s' = ⟨s'.subscriptionId, s'.displayName⟩ := rfl
    _ = ⟨sub.subscriptionId, sub.displayName⟩ := by rw [e1, e2]
    _ = sub := rfl

theorem mem_aggregateCostRows
    (results : List (Subscription × Except String CostPayload))
    (row : CostRow) (h : row ∈ aggregateCostRows results) :
    ∃ r ∈ results, row.subscriptionId = r.1.subscriptionId ∧
      row.subscriptionName = r.1.displayName := by
  unfold aggregateCostRows at h
  rw [List.mem_flatMap] at h
  obtain ⟨r, hr, hrow⟩ := h
  refine ⟨r, hr, ?_⟩
  rcases r with ⟨sub, d⟩
  cases d with
  | error e => simp at hrow
  | ok pay =>
    simp only at hrow
    rw [List.mem_map] at hrow
    obtain ⟨raw, -, rfl⟩ := hrow
    exact ⟨rfl, rfl⟩

theorem mem_plansFromPayload (sub : Subscription) (data : Option PlansPayload)
    (p : DefenderPlan) (h : p ∈ plansFromPayload sub data) :
    p.subscriptionId = sub.subscriptionId ∧ p.subscriptionName = sub.displayName := by
  cases data with
  | none => simp [plansFromPayload] at h
  | some pay =>
    cases hv : pay.value with
    | none => simp [plansFromPayload, hv] at h
    | some plans =>
      simp only [plansFromPayload, hv] at h
      rw [List.mem_filterMap] at h
      obtain ⟨plan, -, hg⟩ := h
      cases ht : planTier plan with
      | none => rw [ht] at hg; simp at hg
      | some t =>
        rw [ht] at hg
        simp only [Option.map_some'] at hg
        obtain rfl := Option.some.inj hg
        exact ⟨rfl, rfl⟩

/-- C9: on all three paths, every row of an aggregated result is traceable
to exactly one subscription of the Subscription Lister's response for that
request: the row carries that subscription's id and display name, and no
row carries a pair outside the list. -/
theorem rows_traceable_to_listed_subscription
    (body : RequestBody) (hs : truthyStr body.startDate = true)
    (he : truthyStr body.endDate = true)
    (tok : String) (subs : List Subscription)
    (fetchC : String → String → String → String → Except String CostPayload)
    (fetchR : String → String → String → String → Except String ResourcePayload)
    (fetchP : String → String → Option PlansPayload)
    (rows : List CostRow) (cols : List Column) (subsOut : List Subscription)
    (hc : (costsHandler body (.ok tok) (fun _ => .ok subs) fetchC).1 =
      .ok rows cols subsOut)
    (tops : List TopResource)
    (ht : (topResourcesHandler body (.ok tok) (fun _ => .ok subs) fetchR).1 = .ok tops)
    (plans : List DefenderPlan)
    (hp : (plansHandler (.ok tok) (fun _ => .ok subs) fetchP).1 = .ok plans) :
    (∀ row ∈ rows, ∃! sub, sub ∈ subs ∧ row.subscriptionId = sub.subscriptionId ∧
      row.subscriptionName = sub.displayName) ∧
    (∀ t ∈ tops, ∃! sub, sub ∈ subs ∧ t.subscriptionId = sub.subscriptionId ∧
      t.subscriptionName = sub.displayName) ∧
    (∀ p ∈ plans, ∃! sub, sub ∈ subs ∧ p.subscriptionId = sub.subscriptionId ∧
      p.subscriptionName = sub.displayName) := by
  have hcond : (truthyStr body.startDate && truthyStr body.endDate) = true := by
    rw [hs, he]; rfl
  refine ⟨?_, ?_, ?_⟩
  · unfold costsHandler at hc
    rw [hcond] at hc
    replace hc : CostsResult.ok
        (aggregateCostRows (subs.map fun sub =>
          (sub, fetchC tok sub.subscriptionId (body.startDate.getD "")
            (body.endDate.getD ""))))
        costColumns subs = .ok rows cols subsOut := hc
    injection hc with h1 h2 h3
    subst h1
    intro row hrow
    obtain ⟨r, hr, hid, hname⟩ := mem_aggregateCostRows _ row hrow
    rw [List.mem_map] at hr
    obtain ⟨sub, hsub, rfl⟩ := hr
    exact sub_unique_of_fields subs sub hsub _ _ hid hname
  · unfold topResourcesHandler at ht
    rw [hcond] at ht
    replace ht : (topResourcesCore tok body subs fetchR).1 = .ok tops := ht
    unfold topResourcesCore at ht
    cases hm : exceptMapM (fun sub =>
        (fetchR tok sub.subscriptionId (body.startDate.getD "")
          (body.endDate.getD "")).map (fun d => (sub, d))) subs with
    | error e => rw [hm] at ht; exact absurd ht (by simp)
    | ok results =>
      rw [hm] at ht
      simp only [TopResult.ok.injEq] at ht
      subst ht
      intro t htt
      unfold rankTopResources at htt
      have h2 := List.mem_mergeSort.mp (List.take_subset _ _ htt)
      rw [List.mem_flatMap] at h2
      obtain ⟨r, hr, hmem⟩ := h2
      obtain ⟨sub, hsub, hfr⟩ := exceptMapM_ok_mem _ subs results hm r hr
      cases hfd : fetchR tok sub.subscriptionId (body.startDate.getD "")
          (body.endDate.getD "") with
      | error e => rw [hfd] at hfr; exact absurd hfr (by simp [Except.map])
      | ok d =>
        rw [hfd] at hfr
        simp only [Except.map] at hfr
        obtain rfl := Except.ok.inj hfr
        rw [List.mem_map] at hmem
        obtain ⟨raw, -, rfl⟩ := hmem
        exact sub_unique_of_fields subs sub hsub _ _ rfl rfl
  · replace hp : PlansResult.ok
        ((subs.map fun sub => (sub, fetchP tok sub.subscriptionId)).flatMap
          fun r => plansFromPayload r.1 r.2) = .ok plans := hp
    injection hp with hp1
    subst hp1
    intro p hpp
    rw [List.mem_flatMap] at hpp
    obtain ⟨r, hr, hpr⟩ := hpp
    rw [List.mem_map] at hr
    obtain ⟨sub, hsub, rfl⟩ := hr
    obtain ⟨hid, hname⟩ := mem_plansFromPayload _ _ p hpr
    exact sub_unique_of_fields subs sub hsub _ _ hid hname

/-- Witness for C9 at a concrete input: one listed subscription, one row on
each path; every output row is traceable to that subscription. -/
theorem rows_traceable_to_listed_subscription_witness :
    (∀ row ∈ ([⟨5, "MC", "MS", "s1", "Unknown", "One"⟩] : List CostRow),
      ∃! sub, sub ∈ ([⟨"s1", "One"⟩] : List Subscription) ∧
        row.subscriptionId = sub.subscriptionId ∧
        row.subscriptionName = sub.displayName) ∧
    (∀ t ∈ ([⟨"s1", "One", "b", some "a/b", "MS", 5⟩] : List TopResource),
      ∃! sub, sub ∈ ([⟨"s1", "One"⟩] : List Subscription) ∧
        t.subscriptionId = sub.subscriptionId ∧
        t.subscriptionName = sub.displayName) ∧
    (∀ p ∈ ([⟨"s1", "One", "planA", "Standard"⟩] : List DefenderPlan),
      ∃! sub, sub ∈ ([⟨"s1", "One"⟩] : List Subscription) ∧
        p.subscriptionId = sub.subscriptionId ∧
        p.subscriptionName = sub.displayName) :=
  rows_traceable_to_listed_subscription
    ⟨some "2024-01-01", some "2024-01-31"⟩ rfl rfl "tok" [⟨"s1", "One"⟩]
    (fun _ _ _ _ => .ok ⟨some ⟨some [⟨5, "MC", "MS", "u", none⟩]⟩⟩)
    (fun _ _ _ _ => .ok ⟨some ⟨some [⟨5, some "a/b", "MS"⟩]⟩⟩)
    (fun _ _ => some ⟨some [⟨"planA", some ⟨some "Standard"⟩⟩]⟩)
    [⟨5, "MC", "MS", "s1", "Unknown", "One"⟩] costColumns [⟨"s1", "One"⟩]
    rfl
    [⟨"s1", "One", "b", some "a/b", "MS", 5⟩]
    (by norm_num [topResourcesHandler, topResourcesCore, exceptMapM, Except.map,
          rankTopResources, List.mergeSort, mkTopResource, deriveResourceName,
          splitSlash, splitSlashAux, jsToFixed2, truthyStr,
          ResourcePayload.rowsOrEmpty, costDescLE];
        decide)
    [⟨"s1", "One", "planA", "Standard"⟩]
    rfl

/-- C10: a subscription whose upstream query succeeds but whose payload
lacks the expected rows container (`properties` or `properties.rows` absent
on the costs and top-resources paths, `value` absent on the plans path)
contributes zero rows, and the request still succeeds: each handler answers
200 whenever its collaborators resolve, malformed payloads included. -/
theorem malformed_payload_treated_as_empty
    (body : RequestBody) (hs : truthyStr body.startDate = true)
    (he : truthyStr body.endDate = true)
    (tok : String) (subs : List Subscription)
    (fetchR : String → String → String → String → Except String ResourcePayload)
    (hok : ∀ sub ∈ subs, ∃ pay,
      fetchR tok sub.subscriptionId (body.startDate.getD "") (body.endDate.getD "") =
        .ok pay) :
    (∀ pay : CostPayload, pay.properties.bind CostProperties.rows = none →
      pay.rowsOrEmpty = []) ∧
    (∀ pay : ResourcePayload, pay.properties.bind ResourceProperties.rows = none →
      pay.rowsOrEmpty = []) ∧
    (∀ (sub : Subscription) (pay : PlansPayload), pay.value = none →
      plansFromPayload sub (some pay) = []) ∧
    (∃ l, (topResourcesHandler body (.ok tok) (fun _ => .ok subs) fetchR).1 = .ok l) ∧
    (∀ fetchC : String → String → String → String → Except String CostPayload,
      ∃ rows, (costsHandler body (.ok tok) (fun _ => .ok subs) fetchC).1 =
        .ok rows costColumns subs) ∧
    (∀ fetchP : String → String → Option PlansPayload,
      ∃ l, (plansHandler (.ok tok) (fun _ => .ok subs) fetchP).1 = .ok l) := by
  have hcond : (truthyStr body.startDate && truthyStr body.endDate) = true := by
    rw [hs, he]; rfl
  refine ⟨?_, ?_, ?_, ?_, ?_, ?_⟩
  · intro pay h
    unfold CostPayload.rowsOrEmpty
    rw [h]
    rfl
  · intro pay h
    unfold ResourcePayload.rowsOrEmpty
    rw [h]
    rfl
  · intro sub pay h
    simp [plansFromPayload, h]
  · obtain ⟨results, hres⟩ := exceptMapM_ok_of_forall
      (fun sub => (fetchR tok sub.subscriptionId (body.startDate.getD "")
        (body.endDate.getD "")).map (fun d => (sub, d))) subs
      (fun sub hsub => by
        obtain ⟨pay, hp⟩ := hok sub hsub
        exact ⟨(sub, pay), by simp only [hp]; rfl⟩)
    refine ⟨rankTopResources (results.flatMap fun r =>
      r.2.rowsOrEmpty.map (mkTopResource r.1)), ?_⟩
    unfold topResourcesHandler
    rw [hcond]
    show (topResourcesCore tok body subs fetchR).1 = _
    unfold topResourcesCore
    rw [hres]
  · intro fetchC
    refine ⟨aggregateCostRows (subs.map fun sub =>
      (sub, fetchC tok sub.subscriptionId (body.startDate.getD "")
        (body.endDate.getD ""))), ?_⟩
    unfold costsHandler
    rw [hcond]
    rfl
  · intro fetchP
    refine ⟨(subs.map fun sub => (sub, fetchP tok sub.subscriptionId)).flatMap
      (fun r => plansFromPayload r.1 r.2), ?_⟩
    rfl

/-- Witness for C10 at a concrete input: a single subscription whose
resource-query payload has no `properties`; the request succeeds. -/
theorem malformed_payload_treated_as_empty_witness :
    (∀ pay : CostPayload, pay.properties.bind CostProperties.rows = none →
      pay.rowsOrEmpty = []) ∧
    (∀ pay : ResourcePayload, pay.properties.bind ResourceProperties.rows = none →
      pay.rowsOrEmpty = []) ∧
    (∀ (sub : Subscription) (pay : PlansPayload), pay.value = none →
      plansFromPayload sub (some pay) = []) ∧
    (∃ l, (topResourcesHandler ⟨some "2024-01-01", some "2024-01-31"⟩ (.ok "tok")
      (fun _ => .ok [⟨"s1", "One"⟩]) (fun _ _ _ _ => .ok ⟨none⟩)).1 = .ok l) ∧
    (∀ fetchC : String → String → String → String → Except String CostPayload,
      ∃ rows, (costsHandler ⟨some "2024-01-01", some "2024-01-31"⟩ (.ok "tok")
        (fun _ => .ok [⟨"s1", "One"⟩]) fetchC).1 =
          .ok rows costColumns [⟨"s1", "One"⟩]) ∧
    (∀ fetchP : String → String → Option PlansPayload,
      ∃ l, (plansHandler (.ok "tok") (fun _ => .ok [⟨"s1", "One"⟩]) fetchP).1 =
        .ok l) :=
  malformed_payload_treated_as_empty ⟨some "2024-01-01", some "2024-01-31"⟩ rfl rfl
    "tok" [⟨"s1", "One"⟩] (fun _ _ _ _ => .ok ⟨none⟩)
    (fun _ _ => ⟨⟨none⟩, rfl⟩)

end AzureCostApp
